import Mathlib

/-!
Shallow embedding of the discord-nickname-manager repository.

The repository ships two near-duplicate implementations of the same bot,
`src/bot.py` and `src/main.py`.  Both are embedded below, in the namespaces
`NG.Bot` and `NG.Main`; functions whose source bodies are identical in the
two files are defined once in `NG.Bot` and aliased in `NG.Main`, with a
comment naming the source lines.

Modelling conventions:
* Discord snowflake ids are `Nat`.  Firestore document ids are the strings
  `str(id)`; since `str` is injective on ids the model keys documents by the
  `Nat` id directly.
* The Firestore database is `Option NG.FirestoreState`: `none` models the
  "store unavailable" state (`db is None` in bot.py, where every guarded
  operation takes its early-return branch; in main.py every store call
  raises and the surrounding `except` branch runs).  Firestore documents
  have dynamic fields, modelled by `Option`-valued record fields; `set`
  without merge replaces the whole document, `set(..., merge=True)`
  overwrites exactly the supplied fields.
* The `last_updated` field always receives the server-side sentinel
  `firestore.SERVER_TIMESTAMP`; it is store metadata carrying no program
  input and is not part of the model.
* `guild.audit_logs(...)` yields entries newest first; the model receives
  the audit answer as `Except Unit (List NG.AuditEntry)` (newest first),
  `Except.error ()` standing for `discord.Forbidden`.
* `member.edit(nick=...)` and `channel.send(...)` are outward commands;
  `NG.HandleResult` records whether they were issued and with what value.
  The boolean input `edit_ok` tells whether the edit command succeeds
  (`discord.Forbidden` / failure otherwise); the notification is sent only
  after a successful edit and only when the log channel exists
  (`Guild.log_channel`).
-/

namespace NG

/-- A guild role as the code consumes it: id, display name, rank position,
owning guild id, and the ids of the members currently holding it
(`role.members`, used only for member counts). -/
structure Role where
  id : Nat
  name : String
  position : Nat
  guild_id : Nat
  memberIds : List Nat
deriving DecidableEq

/-- discord.py `Role.__lt__`: compare positions; at equal position the role
with the larger id is the lower one. -/
def roleLt (a b : Role) : Bool :=
  a.position < b.position || (a.position == b.position && b.id < a.id)

/-- A guild member snapshot: id, current display name, global username
(`str(user)`), and current role objects. -/
structure Member where
  id : Nat
  display_name : String
  username : String
  roles : List Role
deriving DecidableEq

/-- discord.py `Member.top_role`: the maximum of the member's roles under
`roleLt` (`none` when the role list is empty; a real Discord member always
holds at least the @everyone role). -/
def Member.top_role (m : Member) : Option Role :=
  m.roles.foldl
    (fun acc r =>
      match acc with
      | none => some r
      | some t => if roleLt t r then some r else some t)
    none

/-- A guild: id, owner id, the bot's own member id (`guild.me`, compared by
id as discord.py `Member.__eq__` does), whether the hard-coded log channel
exists, member list, and role list. -/
structure Guild where
  id : Nat
  owner_id : Nat
  botId : Nat
  log_channel : Bool
  members : List Member
  roles : List Role
deriving DecidableEq

/-- `guild.get_member(uid)`. -/
def Guild.get_member (g : Guild) (uid : Nat) : Option Member :=
  g.members.find? (fun m => m.id == uid)

/-- `guild.get_role(rid)`. -/
def Guild.get_role (g : Guild) (rid : Nat) : Option Role :=
  g.roles.find? (fun r => r.id == rid)

/-- A Firestore user document under `servers/{gid}/users/{uid}`: each field
is optional because Firestore documents are dynamic maps. -/
structure UserRecord where
  user_id : Option Nat
  guild_id : Option Nat
  nickname : Option String
  updated_by : Option Nat
  is_self_change : Option Bool
  username : Option String
deriving DecidableEq

/-- The document with no fields. -/
def UserRecord.empty : UserRecord :=
  { user_id := none, guild_id := none, nickname := none,
    updated_by := none, is_self_change := none, username := none }

/-- Firestore `set(payload, merge=True)` semantics: fields present in the
payload overwrite, absent fields keep the old value. -/
def UserRecord.mergeInto (payload old : UserRecord) : UserRecord :=
  { user_id := payload.user_id <|> old.user_id,
    guild_id := payload.guild_id <|> old.guild_id,
    nickname := payload.nickname <|> old.nickname,
    updated_by := payload.updated_by <|> old.updated_by,
    is_self_change := payload.is_self_change <|> old.is_self_change,
    username := payload.username <|> old.username }

/-- A Firestore immune-role document under `servers/{gid}/immune_roles/{rid}`
(the `added_at` server timestamp is store metadata and not modelled). -/
structure ImmuneRoleRecord where
  role_id : Nat
  role_name : String
  guild_id : Nat
deriving DecidableEq

/-- The Firestore contents the bot touches: user documents keyed by
(guild id, user id) and immune-role documents keyed by (guild id, role id). -/
structure FirestoreState where
  users : List ((Nat × Nat) × UserRecord)
  immune_roles : List ((Nat × Nat) × ImmuneRoleRecord)
deriving DecidableEq

/-- Write document `v` at key `k`: replace the existing document, else append. -/
def upsertKV {α : Type} (k : Nat × Nat) (v : α) :
    List ((Nat × Nat) × α) → List ((Nat × Nat) × α)
  | [] => [(k, v)]
  | p :: ps => if p.1 = k then (k, v) :: ps else p :: upsertKV k v ps

/-- Read the document at key `k`. -/
def lookupKV {α : Type} (k : Nat × Nat) :
    List ((Nat × Nat) × α) → Option α
  | [] => none
  | p :: ps => if p.1 = k then some p.2 else lookupKV k ps

/-- Delete the document at key `k`. -/
def deleteKV {α : Type} (k : Nat × Nat) :
    List ((Nat × Nat) × α) → List ((Nat × Nat) × α)
  | [] => []
  | p :: ps => if p.1 = k then deleteKV k ps else p :: deleteKV k ps

/-- The document ids in the `servers/{gid}/immune_roles` collection. -/
def immuneRoleIds (s : FirestoreState) (gid : Nat) : List Nat :=
  (s.immune_roles.filter (fun p => p.1.1 == gid)).map (fun p => p.1.2)

/-- One `member_update` audit-log entry: the affected member's id
(`entry.target.id`) and the acting member (`entry.user`). -/
structure AuditEntry where
  target_id : Nat
  user : Member
deriving DecidableEq

/-- The inline audit-log loop of `handle_nickname_change` (bot.py 262-272,
main.py 165-173), the spec's Attribution Resolver.  `audit` is the audit-log
answer, newest entry first, `Except.error ()` standing for
`discord.Forbidden`; `limit` is the query's `limit=` argument (5 in bot.py,
1 in main.py).  The first entry in the window targeting the renamed member
wins; with no match or a forbidden query the renamed member themself is
returned. -/
def attributeChange (limit : Nat) (audit : Except Unit (List AuditEntry))
    (after : Member) : Member :=
  match audit with
  | Except.error _ => after
  | Except.ok entries =>
    match (entries.take limit).find? (fun e => e.target_id == after.id) with
    | some e => e.user
    | none => after

/-- The observable outcome of one `handle_nickname_change` call: the store
contents afterwards, the nickname value of an issued revert command
(`after.edit(nick=...)`) if any, and whether an audit notification was sent. -/
structure HandleResult where
  store : Option FirestoreState
  reverted_to : Option String
  notified : Bool
deriving DecidableEq

namespace Bot

/-- bot.py 79-81: `is_firebase_ready`, true when `db` is not `None`. -/
def is_firebase_ready (store : Option FirestoreState) : Bool :=
  store.isSome

/-- bot.py 83-86: `get_bot_highest_role` — the bot member's `top_role`, or
`None` when the bot is not a member of the guild. -/
def get_bot_highest_role (g : Guild) : Option Role :=
  match g.get_member g.botId with
  | none => none
  | some m => m.top_role

/-- bot.py 88-98: `can_manage_immunity` — the owner always may; otherwise
the author's top role must strictly outrank the bot's top role, and a
missing bot top role denies. -/
def can_manage_immunity (g : Guild) (author : Member) : Bool :=
  if author.id = g.owner_id then true
  else
    match get_bot_highest_role g with
    | none => false
    | some bot_highest_role =>
      match author.top_role with
      | none => false
      | some author_highest_role => roleLt bot_highest_role author_highest_role

/-- bot.py 134-156: `is_user_immune` — false when the store is unavailable
(readiness check, and the `except` branch on a failed read); otherwise true
iff the immune-role id list is nonempty and the user currently holds one of
the listed roles. -/
def is_user_immune (store : Option FirestoreState) (user : Member) (g : Guild) : Bool :=
  match store with
  | none => false
  | some s =>
    let immune_role_ids := immuneRoleIds s g.id
    if immune_role_ids.isEmpty then false
    else
      let user_role_ids := user.roles.map Role.id
      immune_role_ids.any (fun rid => user_role_ids.contains rid)

/-- bot.py 100-110: `can_user_change_others_nicknames` — owner, or holder of
an immune role. -/
def can_user_change_others_nicknames (store : Option FirestoreState)
    (user : Member) (g : Guild) : Bool :=
  if user.id = g.owner_id then true
  else if is_user_immune store user g then true
  else false

/-- bot.py 112-132: `initialize_user` — a full-document `set` (no merge) of
the seed record; no-op when the store is unavailable. -/
def initialize_user (store : Option FirestoreState) (user : Member) (g : Guild) :
    Option FirestoreState :=
  match store with
  | none => none
  | some s =>
    let user_data : UserRecord :=
      { user_id := some user.id, guild_id := some g.id,
        nickname := some user.display_name, updated_by := none,
        is_self_change := some true, username := some user.username }
    some { s with users := upsertKV (g.id, user.id) user_data s.users }

/-- bot.py 328-330 (the `on_ready` sweep over `guild.members`), the spec's
`initializeAllMembers(community)`. -/
def initialize_all_members (store : Option FirestoreState) (g : Guild) :
    Option FirestoreState :=
  g.members.foldl (fun st m => initialize_user st m g) store

/-- bot.py 158-177: `update_nickname_record` — a merge `set` of nickname,
updated_by, is_self_change and username; no-op when the store is
unavailable. -/
def update_nickname_record (store : Option FirestoreState) (user : Member)
    (g : Guild) (new_nickname : String) (updated_by : Nat) (is_self_change : Bool) :
    Option FirestoreState :=
  match store with
  | none => none
  | some s =>
    let user_data : UserRecord :=
      { user_id := none, guild_id := none, nickname := some new_nickname,
        updated_by := some updated_by, is_self_change := some is_self_change,
        username := some user.username }
    let old := (lookupKV (g.id, user.id) s.users).getD UserRecord.empty
    some { s with users := upsertKV (g.id, user.id) (user_data.mergeInto old) s.users }

/-- bot.py 179-195: `get_previous_nickname` — `None` when the store is
unavailable; the document's `nickname` field when the document exists
(`doc.get` on a missing field raises, caught to `None`); when the document
does not exist, seed it via `initialize_user` and return the member's
current display name. -/
def get_previous_nickname (store : Option FirestoreState) (user : Member)
    (g : Guild) : Option FirestoreState × Option String :=
  match store with
  | none => (none, none)
  | some s =>
    match lookupKV (g.id, user.id) s.users with
    | some doc => (some s, doc.nickname)
    | none => (initialize_user (some s) user g, some user.display_name)

/-- bot.py 198-215: `add_immune_role` — `(unchanged, false)` when the store
is unavailable, else write the immune-role document and return true. -/
def add_immune_role (store : Option FirestoreState) (role : Role) :
    Option FirestoreState × Bool :=
  match store with
  | none => (none, false)
  | some s =>
    let entry : ImmuneRoleRecord :=
      { role_id := role.id, role_name := role.name, guild_id := role.guild_id }
    (some { s with immune_roles := upsertKV (role.guild_id, role.id) entry s.immune_roles },
      true)

/-- bot.py 217-229: `remove_immune_role` — `(unchanged, false)` when the
store is unavailable, else delete the immune-role document and return true. -/
def remove_immune_role (store : Option FirestoreState) (role : Role) :
    Option FirestoreState × Bool :=
  match store with
  | none => (none, false)
  | some s =>
    (some { s with immune_roles := deleteKV (role.guild_id, role.id) s.immune_roles },
      true)

/-- bot.py 231-253: `get_immune_roles` — `[]` when the store is unavailable;
otherwise the guild's immune-role documents, keeping only those whose role
still exists in the guild, each with its live member count. -/
def get_immune_roles (store : Option FirestoreState) (g : Guild) :
    List (Role × ImmuneRoleRecord × Nat) :=
  match store with
  | none => []
  | some s =>
    (s.immune_roles.filter (fun p => p.1.1 == g.id)).filterMap (fun p =>
      match g.get_role p.1.2 with
      | some role => some (role, p.2, role.memberIds.length)
      | none => none)

/-- bot.py 255-315: `handle_nickname_change`.  Control flow of the source:
no-op when the display name did not change; attribute the change (window
limit 5); on a self-change update the record (bot.py 277-279) and fall into
the allow branch; when the actor is neither the member nor the bot, an
authorized actor is allowed, and an unauthorized one triggers a revert to
the previously stored nickname when that value is non-empty (Python
truthiness of `previous_nickname`) and differs from the attempted name,
followed by a notification when the edit succeeded and the `audit-log`
channel exists. -/
def handle_nickname_change (store : Option FirestoreState) (g : Guild)
    (audit : Except Unit (List AuditEntry)) (before after : Member)
    (edit_ok : Bool) : HandleResult :=
  if before.display_name = after.display_name then
    { store := store, reverted_to := none, notified := false }
  else
    let actor := attributeChange 5 audit after
    if actor.id = after.id then
      -- self-change: update the record, then the intervene guard fails
      { store := update_nickname_record store after g after.display_name actor.id true,
        reverted_to := none, notified := false }
    else if actor.id = g.botId then
      -- bot's own action: the intervene guard fails, record untouched
      { store := store, reverted_to := none, notified := false }
    else if can_user_change_others_nicknames store actor g then
      -- authorized other-change: early return, record untouched
      { store := store, reverted_to := none, notified := false }
    else
      let pr := get_previous_nickname store after g
      match pr.2 with
      | some previous_nickname =>
        if previous_nickname = "" then
          { store := pr.1, reverted_to := none, notified := false }
        else if previous_nickname = after.display_name then
          { store := pr.1, reverted_to := none, notified := false }
        else
          { store := pr.1, reverted_to := some previous_nickname,
            notified := edit_ok && g.log_channel }
      | none => { store := pr.1, reverted_to := none, notified := false }

end Bot

namespace Main

/-- main.py 43-45 is identical to bot.py 83-86. -/
def get_bot_highest_role (g : Guild) : Option Role :=
  Bot.get_bot_highest_role g

/-- main.py 47-54 is identical to bot.py 88-98. -/
def can_manage_immunity (g : Guild) (author : Member) : Bool :=
  Bot.can_manage_immunity g author

/-- main.py 78-91: `is_user_immune` — no readiness check, but with an
unavailable store every read raises and the `except` branch returns false,
observably identical to bot.py 134-156. -/
def is_user_immune (store : Option FirestoreState) (user : Member) (g : Guild) : Bool :=
  Bot.is_user_immune store user g

/-- main.py 56-61 is identical to bot.py 100-110. -/
def can_user_change_others_nicknames (store : Option FirestoreState)
    (user : Member) (g : Guild) : Bool :=
  Bot.can_user_change_others_nicknames store user g

/-- main.py 63-76: `initialize_user` — unlike bot.py 112-132 this is a
merge `set`: present fields overwrite, other fields survive.  With an
unavailable store the raised error is caught and nothing changes. -/
def initialize_user (store : Option FirestoreState) (user : Member) (g : Guild) :
    Option FirestoreState :=
  match store with
  | none => none
  | some s =>
    let user_data : UserRecord :=
      { user_id := some user.id, guild_id := some g.id,
        nickname := some user.display_name, updated_by := none,
        is_self_change := some true, username := some user.username }
    let old := (lookupKV (g.id, user.id) s.users).getD UserRecord.empty
    some { s with users := upsertKV (g.id, user.id) (user_data.mergeInto old) s.users }

/-- main.py 213-216: the `on_ready` sweep over `guild.members`. -/
def initialize_all_members (store : Option FirestoreState) (g : Guild) :
    Option FirestoreState :=
  g.members.foldl (fun st m => initialize_user st m g) store

/-- main.py 93-105 is identical to bot.py 158-177 (merge write, errors
caught). -/
def update_nickname_record (store : Option FirestoreState) (user : Member)
    (g : Guild) (new_nickname : String) (updated_by : Nat) (is_self_change : Bool) :
    Option FirestoreState :=
  Bot.update_nickname_record store user g new_nickname updated_by is_self_change

/-- main.py 107-114: `get_previous_nickname` — `None` on a failed read and
`None` when the document does not exist (no seeding fallback, unlike bot.py
179-195); otherwise the document's `nickname` field. -/
def get_previous_nickname (store : Option FirestoreState) (user : Member)
    (g : Guild) : Option String :=
  match store with
  | none => none
  | some s =>
    match lookupKV (g.id, user.id) s.users with
    | some doc => doc.nickname
    | none => none

/-- main.py 116-128: `add_immune_role` — the write raises on an unavailable
store and the function re-raises (`Except.error`); on success the document
is written and the function returns normally. -/
def add_immune_role (store : Option FirestoreState) (role : Role) :
    Except Unit FirestoreState :=
  match store with
  | none => Except.error ()
  | some s =>
    let entry : ImmuneRoleRecord :=
      { role_id := role.id, role_name := role.name, guild_id := role.guild_id }
    Except.ok { s with immune_roles := upsertKV (role.guild_id, role.id) entry s.immune_roles }

/-- main.py 130-137: `remove_immune_role` — re-raises on an unavailable
store, else deletes the document. -/
def remove_immune_role (store : Option FirestoreState) (role : Role) :
    Except Unit FirestoreState :=
  match store with
  | none => Except.error ()
  | some s =>
    Except.ok { s with immune_roles := deleteKV (role.guild_id, role.id) s.immune_roles }

/-- main.py 139-156 is identical to bot.py 231-253 (errors caught to `[]`). -/
def get_immune_roles (store : Option FirestoreState) (g : Guild) :
    List (Role × ImmuneRoleRecord × Nat) :=
  Bot.get_immune_roles store g

/-- main.py 158-202: `handle_nickname_change`.  Differences from bot.py
255-315: the member is re-seeded with `initialize_user` first (main.py 163),
the audit window limit is 1, the record is updated for EVERY attributed
change before the authorization check (main.py 176), there is no
document-missing seeding inside `get_previous_nickname`, and the
notification channel is `nickname-logs`. -/
def handle_nickname_change (store : Option FirestoreState) (g : Guild)
    (audit : Except Unit (List AuditEntry)) (before after : Member)
    (edit_ok : Bool) : HandleResult :=
  if before.display_name = after.display_name then
    { store := store, reverted_to := none, notified := false }
  else
    let store0 := initialize_user store after g
    let actor := attributeChange 1 audit after
    if actor.id = after.id then
      { store := update_nickname_record store0 after g after.display_name actor.id true,
        reverted_to := none, notified := false }
    else
      let store1 := update_nickname_record store0 after g after.display_name actor.id false
      if actor.id = g.botId then
        { store := store1, reverted_to := none, notified := false }
      else if can_user_change_others_nicknames store1 actor g then
        { store := store1, reverted_to := none, notified := false }
      else
        match get_previous_nickname store1 after g with
        | some previous_nickname =>
          if previous_nickname = "" then
            { store := store1, reverted_to := none, notified := false }
          else if previous_nickname = after.display_name then
            { store := store1, reverted_to := none, notified := false }
          else
            { store := store1, reverted_to := some previous_nickname,
              notified := edit_ok && g.log_channel }
        | none => { store := store1, reverted_to := none, notified := false }

end Main

/-! Spec-side predicates for the refinement claims: these two definitions
follow the spec's words, to be compared with the code-side functions. -/

/-- The spec's `canManageImmunity` sentence: true iff the actor is the
community owner, or the actor's highest-ranked role strictly outranks the
system's own highest-ranked role in that community (which requires the
system to be a member and to hold at least one role). -/
def canManageImmunitySpec (g : Guild) (a : Member) : Prop :=
  a.id = g.owner_id ∨
    ∃ bm bt atop, g.get_member g.botId = some bm ∧ bm.top_role = some bt ∧
      a.top_role = some atop ∧ roleLt bt atop = true

/-- The spec's `isImmune` sentence: the actor's current live role
assignments intersect the immune-role-id set stored for the community
(which requires an available store). -/
def isImmuneSpec (store : Option FirestoreState) (u : Member) (g : Guild) : Prop :=
  ∃ s, store = some s ∧ ∃ r ∈ u.roles, r.id ∈ immuneRoleIds s g.id

/-! Concrete instances used by witnesses and counterexamples. -/

/-- A seeded user document whose stored legitimate nickname is "Alice". -/
def aliceRec : UserRecord :=
  { user_id := some 2, guild_id := some 1, nickname := some "Alice",
    updated_by := none, is_self_change := some true, username := some "alice#1" }

/-- A user document carrying an `updated_by` field written by an accepted
rename. -/
def renamedRec : UserRecord :=
  { user_id := some 2, guild_id := some 1, nickname := some "Alice",
    updated_by := some 7, is_self_change := some false, username := some "alice#1" }

/-- A store holding only member 2's record in guild 1. -/
def exStore : FirestoreState :=
  { users := [((1, 2), aliceRec)], immune_roles := [] }

/-- A store holding member 2's record with an `updated_by` field. -/
def renamedStore : FirestoreState :=
  { users := [((1, 2), renamedRec)], immune_roles := [] }

/-- An available store with no documents at all. -/
def exEmptyStore : FirestoreState :=
  { users := [], immune_roles := [] }

/-- Member 2 before the rename event. -/
def mBefore : Member :=
  { id := 2, display_name := "Alice", username := "alice#1", roles := [] }

/-- Member 2 after the rename event. -/
def mAfter : Member :=
  { id := 2, display_name := "Bob", username := "alice#1", roles := [] }

/-- An unprivileged actor: not the owner, no roles. -/
def mActor : Member :=
  { id := 3, display_name := "Eve", username := "eve#1", roles := [] }

/-- The guild owner as a member. -/
def mOwner : Member :=
  { id := 10, display_name := "Own", username := "own#1", roles := [] }

/-- A role of guild 1, held by member 3. -/
def exRole : Role :=
  { id := 5, name := "Mods", position := 3, guild_id := 1, memberIds := [3] }

/-- Guild 1: owner 10, bot 99 (not a member), the log channel present. -/
def exGuild : Guild :=
  { id := 1, owner_id := 10, botId := 99, log_channel := true,
    members := [mBefore], roles := [exRole] }

/-- An audit answer attributing the rename of member 2 to actor 3. -/
def exAudit : Except Unit (List AuditEntry) :=
  Except.ok [{ target_id := 2, user := mActor }]

/-- An audit answer attributing the rename of member 2 to the owner. -/
def ownAudit : Except Unit (List AuditEntry) :=
  Except.ok [{ target_id := 2, user := mOwner }]

/-- An audit answer attributing the rename of member 2 to member 2. -/
def selfAudit : Except Unit (List AuditEntry) :=
  Except.ok [{ target_id := 2, user := mAfter }]

/-- A user document for member 2 that lacks the `nickname` field. -/
def noNickRec : UserRecord :=
  { user_id := some 2, guild_id := some 1, nickname := none,
    updated_by := none, is_self_change := some true, username := some "alice#1" }

/-- A store holding member 2's record without a `nickname` field. -/
def noNickStore : FirestoreState :=
  { users := [((1, 2), noNickRec)], immune_roles := [] }

end NG

namespace NG

/-! Basic lemmas about the keyed-document operations. -/

theorem upsertKV_cons_eq {α : Type} {k : Nat × Nat} {p : (Nat × Nat) × α}
    {ps : List ((Nat × Nat) × α)} (v : α) (h : p.1 = k) :
    upsertKV k v (p :: ps) = (k, v) :: ps := by
  simp [upsertKV, h]

theorem upsertKV_cons_ne {α : Type} {k : Nat × Nat} {p : (Nat × Nat) × α}
    {ps : List ((Nat × Nat) × α)} (v : α) (h : ¬ p.1 = k) :
    upsertKV k v (p :: ps) = p :: upsertKV k v ps := by
  simp [upsertKV, h]

theorem lookupKV_cons_eq {α : Type} {k : Nat × Nat} {p : (Nat × Nat) × α}
    {ps : List ((Nat × Nat) × α)} (h : p.1 = k) :
    lookupKV k (p :: ps) = some p.2 := by
  simp [lookupKV, h]

theorem lookupKV_cons_ne {α : Type} {k : Nat × Nat} {p : (Nat × Nat) × α}
    {ps : List ((Nat × Nat) × α)} (h : ¬ p.1 = k) :
    lookupKV k (p :: ps) = lookupKV k ps := by
  simp [lookupKV, h]

theorem deleteKV_cons_eq {α : Type} {k : Nat × Nat} {p : (Nat × Nat) × α}
    {ps : List ((Nat × Nat) × α)} (h : p.1 = k) :
    deleteKV k (p :: ps) = deleteKV k ps := by
  simp [deleteKV, h]

theorem deleteKV_cons_ne {α : Type} {k : Nat × Nat} {p : (Nat × Nat) × α}
    {ps : List ((Nat × Nat) × α)} (h : ¬ p.1 = k) :
    deleteKV k (p :: ps) = p :: deleteKV k ps := by
  simp [deleteKV, h]

theorem lookupKV_upsertKV_self {α : Type} (k : Nat × Nat) (v : α)
    (l : List ((Nat × Nat) × α)) : lookupKV k (upsertKV k v l) = some v := by
  induction l with
  | nil => simp [upsertKV, lookupKV]
  | cons p ps ih =>
    by_cases h : p.1 = k
    · rw [upsertKV_cons_eq v h]
      simp [lookupKV]
    · rw [upsertKV_cons_ne v h, lookupKV_cons_ne h]
      exact ih

theorem lookupKV_upsertKV_ne {α : Type} {k k' : Nat × Nat} (v : α)
    (l : List ((Nat × Nat) × α)) (h : k' ≠ k) :
    lookupKV k' (upsertKV k v l) = lookupKV k' l := by
  have hkk : ¬ (k, v).1 = k' := fun hh => h hh.symm
  induction l with
  | nil =>
    show lookupKV k' [(k, v)] = lookupKV k' []
    rw [lookupKV_cons_ne hkk]
  | cons p ps ih =>
    by_cases hp : p.1 = k
    · have hpk : ¬ p.1 = k' := by
        rw [hp]
        exact fun hh => h hh.symm
      rw [upsertKV_cons_eq v hp, lookupKV_cons_ne hkk, lookupKV_cons_ne hpk]
    · by_cases hp' : p.1 = k'
      · rw [upsertKV_cons_ne v hp, lookupKV_cons_eq hp', lookupKV_cons_eq hp']
      · rw [upsertKV_cons_ne v hp, lookupKV_cons_ne hp', lookupKV_cons_ne hp']
        exact ih

/-- Writing back the value a key already holds leaves the list unchanged. -/
theorem upsertKV_of_lookupKV_eq {α : Type} {k : Nat × Nat} {v : α}
    {l : List ((Nat × Nat) × α)} (h : lookupKV k l = some v) :
    upsertKV k v l = l := by
  induction l with
  | nil => simp [lookupKV] at h
  | cons p ps ih =>
    by_cases hp : p.1 = k
    · rw [lookupKV_cons_eq hp] at h
      rw [upsertKV_cons_eq v hp]
      have : p = (k, v) := by
        rcases p with ⟨pk, pv⟩
        simp at hp h
        exact Prod.ext hp h
      rw [this]
    · rw [lookupKV_cons_ne hp] at h
      rw [upsertKV_cons_ne v hp, ih h]

theorem mem_upsertKV_self {α : Type} (k : Nat × Nat) (v : α)
    (l : List ((Nat × Nat) × α)) : (k, v) ∈ upsertKV k v l := by
  induction l with
  | nil => simp [upsertKV]
  | cons p ps ih =>
    by_cases h : p.1 = k
    · rw [upsertKV_cons_eq v h]
      exact List.mem_cons_self _ _
    · rw [upsertKV_cons_ne v h]
      exact List.mem_cons_of_mem p ih

theorem mem_deleteKV {α : Type} {k : Nat × Nat} {p : (Nat × Nat) × α} :
    ∀ {l : List ((Nat × Nat) × α)}, p ∈ deleteKV k l → p ∈ l ∧ p.1 ≠ k := by
  intro l
  induction l with
  | nil =>
    intro hp
    simp [deleteKV] at hp
  | cons q qs ih =>
    intro hp
    by_cases h : q.1 = k
    · rw [deleteKV_cons_eq h] at hp
      rcases ih hp with ⟨h1, h2⟩
      exact ⟨List.mem_cons_of_mem q h1, h2⟩
    · rw [deleteKV_cons_ne h] at hp
      rcases List.mem_cons.mp hp with hq | hq
      · subst hq
        exact ⟨List.mem_cons_self p qs, h⟩
      · rcases ih hq with ⟨h1, h2⟩
        exact ⟨List.mem_cons_of_mem q h1, h2⟩

theorem not_mem_keys_upsertKV {α : Type} {x k : Nat × Nat} (v : α)
    (hk : x ≠ k) :
    ∀ {l : List ((Nat × Nat) × α)}, x ∉ l.map Prod.fst →
      x ∉ (upsertKV k v l).map Prod.fst := by
  intro l
  induction l with
  | nil =>
    intro _
    simp [upsertKV, hk]
  | cons p ps ih =>
    intro hx
    simp only [List.map_cons, List.mem_cons, not_or] at hx
    by_cases h : p.1 = k
    · rw [upsertKV_cons_eq v h]
      simp only [List.map_cons, List.mem_cons, not_or]
      exact ⟨hk, hx.2⟩
    · rw [upsertKV_cons_ne v h]
      simp only [List.map_cons, List.mem_cons, not_or]
      exact ⟨hx.1, ih hx.2⟩

theorem keys_nodup_upsertKV {α : Type} (k : Nat × Nat) (v : α) :
    ∀ {l : List ((Nat × Nat) × α)}, (l.map Prod.fst).Nodup →
      ((upsertKV k v l).map Prod.fst).Nodup := by
  intro l
  induction l with
  | nil =>
    intro _
    simp [upsertKV]
  | cons p ps ih =>
    intro h
    rw [List.map_cons, List.nodup_cons] at h
    by_cases hp : p.1 = k
    · rw [upsertKV_cons_eq v hp]
      rw [List.map_cons, List.nodup_cons]
      exact ⟨hp ▸ h.1, h.2⟩
    · rw [upsertKV_cons_ne v hp]
      rw [List.map_cons, List.nodup_cons]
      exact ⟨not_mem_keys_upsertKV v hp h.1, ih h.2⟩

theorem orElse_absorb {α : Type} (a b : Option α) :
    (a <|> (a <|> b)) = (a <|> b) := by
  cases a <;> rfl

theorem mergeInto_absorb (p o : UserRecord) :
    p.mergeInto (p.mergeInto o) = p.mergeInto o := by
  simp [UserRecord.mergeInto, orElse_absorb]

/-! Characterizations of the role-policy checks. -/

theorem mem_immuneRoleIds {s : FirestoreState} {gid rid : Nat} :
    rid ∈ immuneRoleIds s gid ↔
      ∃ q ∈ s.immune_roles, q.1.1 = gid ∧ q.1.2 = rid := by
  simp only [immuneRoleIds, List.mem_map, List.mem_filter, beq_iff_eq]
  constructor
  · rintro ⟨q, ⟨hq, hgid⟩, hrid⟩
    exact ⟨q, hq, hgid, hrid⟩
  · rintro ⟨q, hq, hgid, hrid⟩
    exact ⟨q, ⟨hq, hgid⟩, hrid⟩


theorem is_user_immune_iff (store : Option FirestoreState) (u : Member) (g : Guild) :
    Bot.is_user_immune store u g = true ↔ isImmuneSpec store u g := by
  cases store with
  | none => simp [Bot.is_user_immune, isImmuneSpec]
  | some s =>
    by_cases hemp : (immuneRoleIds s g.id).isEmpty
    · have hnil : immuneRoleIds s g.id = [] := List.isEmpty_iff.mp hemp
      simp [Bot.is_user_immune, isImmuneSpec, hemp, hnil]
    · simp only [Bot.is_user_immune, isImmuneSpec, hemp, Bool.false_eq_true,
        if_false, List.any_eq_true, Option.some.injEq]
      constructor
      · rintro ⟨rid, hrid, hcon⟩
        have hmem : rid ∈ u.roles.map Role.id := by
          simpa using hcon
        rcases List.mem_map.mp hmem with ⟨r, hr, hrid2⟩
        refine ⟨s, rfl, r, hr, ?_⟩
        rw [hrid2]
        exact hrid
      · rintro ⟨s2, hs2, r, hr, hrid⟩
        cases hs2
        refine ⟨r.id, hrid, ?_⟩
        have : r.id ∈ u.roles.map Role.id := List.mem_map.mpr ⟨r, hr, rfl⟩
        simpa using this


theorem get_bot_highest_role_some_iff (g : Guild) (bt : Role) :
    Bot.get_bot_highest_role g = some bt ↔
      ∃ bm, g.get_member g.botId = some bm ∧ bm.top_role = some bt := by
  unfold Bot.get_bot_highest_role
  cases h : g.get_member g.botId <;> simp [h]

/-- C5: canManageImmunity is true exactly for the owner or an actor whose
highest role strictly outranks the bot's highest role; with no bot role the
owner alone passes.  Holds for both implementations. -/
theorem claim_C5 (g : Guild) (a : Member) :
    (Bot.can_manage_immunity g a = true ↔ canManageImmunitySpec g a) ∧
    (Main.can_manage_immunity g a = true ↔ canManageImmunitySpec g a) ∧
    (Bot.get_bot_highest_role g = none →
      (Bot.can_manage_immunity g a = true ↔ a.id = g.owner_id)) := by
  have hiff : Bot.can_manage_immunity g a = true ↔ canManageImmunitySpec g a := by
    constructor
    · intro h
      unfold Bot.can_manage_immunity at h
      by_cases ho : a.id = g.owner_id
      · exact Or.inl ho
      · right
        rw [if_neg ho] at h
        cases hbt : Bot.get_bot_highest_role g with
        | none =>
          rw [hbt] at h
          simp at h
        | some bt =>
          rw [hbt] at h
          cases hat : a.top_role with
          | none =>
            rw [hat] at h
            simp at h
          | some atop =>
            rw [hat] at h
            rcases (get_bot_highest_role_some_iff g bt).mp hbt with ⟨bm, h1, h2⟩
            exact ⟨bm, bt, atop, h1, h2, rfl, h⟩
    · intro h
      rcases h with ho | ⟨bm, bt, atop, h1, h2, h3, h4⟩
      · unfold Bot.can_manage_immunity
        simp [ho]
      · unfold Bot.can_manage_immunity
        by_cases ho : a.id = g.owner_id
        · simp [ho]
        · have hbt : Bot.get_bot_highest_role g = some bt :=
            (get_bot_highest_role_some_iff g bt).mpr ⟨bm, h1, h2⟩
          simp [ho, hbt, h3, h4]
  refine ⟨hiff, hiff, ?_⟩
  intro hnone
  constructor
  · intro h
    unfold Bot.can_manage_immunity at h
    by_cases ho : a.id = g.owner_id
    · exact ho
    · rw [if_neg ho, hnone] at h
      simp at h
  · intro ho
    unfold Bot.can_manage_immunity
    simp [ho]

/-- C6: isImmune is true exactly when the actor's live roles intersect the
stored immune-role-id set; an empty immune set or an unavailable store gives
false.  Holds for both implementations. -/
theorem claim_C6 (store : Option FirestoreState) (u : Member) (g : Guild) :
    (Bot.is_user_immune store u g = true ↔ isImmuneSpec store u g) ∧
    (Main.is_user_immune store u g = true ↔ isImmuneSpec store u g) ∧
    Bot.is_user_immune none u g = false ∧
    Main.is_user_immune none u g = false ∧
    (∀ s, store = some s → immuneRoleIds s g.id = [] →
      Bot.is_user_immune store u g = false ∧
      Main.is_user_immune store u g = false) := by
  refine ⟨is_user_immune_iff store u g, is_user_immune_iff store u g, rfl, rfl, ?_⟩
  intro s hs hnil
  subst hs
  have : Bot.is_user_immune (some s) u g = false := by
    simp [Bot.is_user_immune, hnil]
  exact ⟨this, this⟩


/-! The attribution resolver. -/

theorem find?_append_first {α : Type} (p : α → Bool) (pre : List α) (e : α)
    (post : List α) (hpre : ∀ x ∈ pre, p x = false) (he : p e = true) :
    (pre ++ e :: post).find? p = some e := by
  induction pre with
  | nil =>
    simp only [List.nil_append]
    exact List.find?_cons_of_pos post he
  | cons a tl ih =>
    have ha : p a = false := hpre a (List.mem_cons_self a tl)
    rw [List.cons_append, List.find?_cons_of_neg _ (by simp [ha])]
    exact ih fun x hx => hpre x (List.mem_cons_of_mem a hx)

/-- C4: attribution returns the acting member of the most recent (first, in
the newest-first audit answer) window entry targeting the renamed member;
with no matching entry in the window, or a forbidden audit query, it
returns the renamed member themself. -/
theorem claim_C4 (limit : Nat) (audit : Except Unit (List AuditEntry)) (after : Member) :
    (audit = Except.error () → attributeChange limit audit after = after) ∧
    (∀ entries, audit = Except.ok entries →
      ((∀ e ∈ entries.take limit, e.target_id ≠ after.id) →
        attributeChange limit audit after = after) ∧
      (∀ pre e post, entries.take limit = pre ++ e :: post →
        e.target_id = after.id →
        (∀ x ∈ pre, x.target_id ≠ after.id) →
        attributeChange limit audit after = e.user)) := by
  constructor
  · intro h
    subst h
    rfl
  · intro entries h
    subst h
    constructor
    · intro hall
      have hnone : (entries.take limit).find? (fun e => e.target_id == after.id) = none :=
        List.find?_eq_none.mpr fun x hx => by simp [hall x hx]
      show (match (entries.take limit).find? (fun e => e.target_id == after.id) with
            | some e => e.user
            | none => after) = after
      rw [hnone]
    · intro pre e post hsplit he hpre
      have hfind : (entries.take limit).find? (fun e => e.target_id == after.id) = some e := by
        rw [hsplit]
        exact find?_append_first _ pre e post (fun x hx => by simp [hpre x hx]) (by simp [he])
      show (match (entries.take limit).find? (fun e => e.target_id == after.id) with
            | some e => e.user
            | none => after) = e.user
      rw [hfind]

/-! Immune-role administration. -/

theorem mem_get_immune_roles_of {s : FirestoreState} {g : Guild}
    {k : Nat × Nat} {e : ImmuneRoleRecord} (hp : (k, e) ∈ s.immune_roles)
    (h1 : k.1 = g.id) {r : Role} (h2 : g.get_role k.2 = some r) :
    (r, e, r.memberIds.length) ∈ Bot.get_immune_roles (some s) g := by
  unfold Bot.get_immune_roles
  apply List.mem_filterMap.mpr
  refine ⟨(k, e), List.mem_filter.mpr ⟨hp, by simp [h1]⟩, ?_⟩
  simp [h2]

theorem mem_of_get_immune_roles {s : FirestoreState} {g : Guild}
    {t : Role × ImmuneRoleRecord × Nat} (ht : t ∈ Bot.get_immune_roles (some s) g) :
    ∃ p ∈ s.immune_roles, p.1.1 = g.id ∧ g.get_role p.1.2 = some t.1 ∧
      t.1.id = p.1.2 := by
  unfold Bot.get_immune_roles at ht
  rcases List.mem_filterMap.mp ht with ⟨p, hpf, hF⟩
  rcases List.mem_filter.mp hpf with ⟨hp, hgid⟩
  cases hrole : g.get_role p.1.2 with
  | none =>
    rw [hrole] at hF
    simp at hF
  | some r =>
    rw [hrole] at hF
    simp at hF
    have hid : r.id = p.1.2 := by
      have hr := hrole
      unfold Guild.get_role at hr
      have := List.find?_some hr
      simpa using this
    refine ⟨p, hp, by simpa using hgid, ?_, ?_⟩
    · rw [hrole, ← hF]
    · rw [← hF]
      exact hid

/-- C8: with an available store and a role that exists in the community,
adding it makes listImmuneRoles include it, removing it makes the listing
exclude it, and every listed entry is a role that still exists in the
community.  Holds for both implementations. -/
theorem claim_C8 (s : FirestoreState) (g : Guild) (role : Role)
    (hgid : role.guild_id = g.id) (hex : g.get_role role.id = some role) :
    (∃ e c, (role, e, c) ∈ Bot.get_immune_roles (Bot.add_immune_role (some s) role).1 g) ∧
    (∀ t ∈ Bot.get_immune_roles (Bot.remove_immune_role (some s) role).1 g,
      t.1.id ≠ role.id) ∧
    (∀ t ∈ Bot.get_immune_roles (some s) g, g.get_role t.1.id = some t.1) ∧
    (∀ s1, Main.add_immune_role (some s) role = Except.ok s1 →
      ∃ e c, (role, e, c) ∈ Main.get_immune_roles (some s1) g) ∧
    (∀ s1, Main.remove_immune_role (some s) role = Except.ok s1 →
      ∀ t ∈ Main.get_immune_roles (some s1) g, t.1.id ≠ role.id) := by
  have hadd : ∃ e c, (role, e, c) ∈
      Bot.get_immune_roles (Bot.add_immune_role (some s) role).1 g := by
    unfold Bot.add_immune_role
    dsimp only
    refine ⟨⟨role.id, role.name, role.guild_id⟩, role.memberIds.length, ?_⟩
    apply mem_get_immune_roles_of
    · exact mem_upsertKV_self (role.guild_id, role.id) _ s.immune_roles
    · exact hgid
    · exact hex
  have hrem : ∀ t ∈ Bot.get_immune_roles (Bot.remove_immune_role (some s) role).1 g,
      t.1.id ≠ role.id := by
    unfold Bot.remove_immune_role
    dsimp only
    intro t ht hteq
    rcases mem_of_get_immune_roles ht with ⟨p, hp, h1, h2, h3⟩
    rcases mem_deleteKV hp with ⟨hmem, hkey⟩
    apply hkey
    have hpr : p.1.2 = role.id := by
      rw [← h3, hteq]
    apply Prod.ext
    · rw [h1, hgid]
    · rw [hpr]
  refine ⟨hadd, hrem, ?_, ?_, ?_⟩
  · intro t ht
    rcases mem_of_get_immune_roles ht with ⟨p, hp, h1, h2, h3⟩
    rw [h3]
    exact h2
  · intro s1 h
    cases h
    exact hadd
  · intro s1 h
    cases h
    exact hrem

/-- C7 (amended): with the store unavailable, add and remove report failure
(False in bot.py; a re-raised error in main.py) and change nothing, and
listImmuneRoles returns the empty list and changes nothing. -/
theorem claim_C7 (g : Guild) (role : Role) :
    Bot.add_immune_role none role = (none, false) ∧
    Bot.remove_immune_role none role = (none, false) ∧
    Bot.get_immune_roles none g = [] ∧
    Main.add_immune_role none role = Except.error () ∧
    Main.remove_immune_role none role = Except.error () ∧
    Main.get_immune_roles none g = [] :=
  ⟨rfl, rfl, rfl, rfl, rfl, rfl⟩

/-- C7 counterexample: with the store unavailable, listImmuneRoles returns
exactly what it returns on an available store with no immune roles, so the
caller receives no failure signal from it. -/
theorem claim_C7_counterexample :
    Bot.get_immune_roles none exGuild = Bot.get_immune_roles (some exEmptyStore) exGuild ∧
    Main.get_immune_roles none exGuild = Main.get_immune_roles (some exEmptyStore) exGuild :=
  ⟨rfl, rfl⟩


/-! The member-initialization sweep.  The sweeps fold the per-member seeding
over the member list; the lemmas below work on the underlying `users` list,
with the per-member written document abstracted as a function `f` of the
member and the current list (bot.py writes a fixed document, main.py a
merge of the fixed document into the current one). -/

theorem foldl_init_none {σ : Type} (step : Option σ → Member → Option σ)
    (hnone : ∀ m, step none m = none) (ms : List Member) :
    List.foldl step none ms = none := by
  induction ms with
  | nil => rfl
  | cons m tl ih =>
    show List.foldl step (step none m) tl = none
    rw [hnone m]
    exact ih

theorem lookupKV_foldl_upsert_stable (g : Guild)
    (f : Member → List ((Nat × Nat) × UserRecord) → UserRecord) (k : Nat × Nat) :
    ∀ (ms : List Member) (l : List ((Nat × Nat) × UserRecord)),
      (∀ m ∈ ms, (g.id, m.id) ≠ k) →
      lookupKV k (List.foldl (fun l m => upsertKV (g.id, m.id) (f m l) l) l ms) =
        lookupKV k l := by
  intro ms
  induction ms with
  | nil =>
    intro l _
    rfl
  | cons m tl ih =>
    intro l hne
    show lookupKV k (List.foldl _ (upsertKV (g.id, m.id) (f m l) l) tl) = lookupKV k l
    rw [ih _ fun x hx => hne x (List.mem_cons_of_mem m hx)]
    exact lookupKV_upsertKV_ne _ l fun hh => hne m (List.mem_cons_self m tl) hh.symm

theorem lookupKV_foldl_upsert_self (g : Guild)
    (f : Member → List ((Nat × Nat) × UserRecord) → UserRecord) :
    ∀ (ms : List Member), (ms.map Member.id).Nodup →
      ∀ (l : List ((Nat × Nat) × UserRecord)) (m : Member), m ∈ ms →
      ∃ l0, lookupKV (g.id, m.id)
          (List.foldl (fun l m => upsertKV (g.id, m.id) (f m l) l) l ms) =
        some (f m l0) := by
  intro ms
  induction ms with
  | nil =>
    intro _ l m hm
    simp at hm
  | cons a tl ih =>
    intro hN l m hm
    rw [List.map_cons, List.nodup_cons] at hN
    rcases List.mem_cons.mp hm with hma | hmtl
    · subst hma
      refine ⟨l, ?_⟩
      show lookupKV (g.id, m.id) (List.foldl _ (upsertKV (g.id, m.id) (f m l) l) tl) = _
      have hne : ∀ x ∈ tl, (g.id, x.id) ≠ (g.id, m.id) := by
        intro x hx hc
        apply hN.1
        have : x.id = m.id := (Prod.mk.injEq _ _ _ _).mp hc |>.2
        rw [← this]
        exact List.mem_map.mpr ⟨x, hx, rfl⟩
      rw [lookupKV_foldl_upsert_stable g f _ tl _ hne]
      exact lookupKV_upsertKV_self _ _ l
    · exact ih hN.2 _ m hmtl

theorem foldl_upsert_fixed (g : Guild)
    (f : Member → List ((Nat × Nat) × UserRecord) → UserRecord) :
    ∀ (ms : List Member) (l : List ((Nat × Nat) × UserRecord)),
      (∀ m ∈ ms, ∃ w, lookupKV (g.id, m.id) l = some w ∧ f m l = w) →
      List.foldl (fun l m => upsertKV (g.id, m.id) (f m l) l) l ms = l := by
  intro ms
  induction ms with
  | nil =>
    intro l _
    rfl
  | cons a tl ih =>
    intro l hfix
    rcases hfix a (List.mem_cons_self a tl) with ⟨w, hw1, hw2⟩
    show List.foldl _ (upsertKV (g.id, a.id) (f a l) l) tl = l
    rw [hw2, upsertKV_of_lookupKV_eq hw1]
    exact ih l fun m hm => hfix m (List.mem_cons_of_mem a hm)

theorem keys_nodup_foldl_upsert (g : Guild)
    (f : Member → List ((Nat × Nat) × UserRecord) → UserRecord) :
    ∀ (ms : List Member) (l : List ((Nat × Nat) × UserRecord)),
      (l.map Prod.fst).Nodup →
      ((List.foldl (fun l m => upsertKV (g.id, m.id) (f m l) l) l ms).map Prod.fst).Nodup := by
  intro ms
  induction ms with
  | nil =>
    intro l h
    exact h
  | cons a tl ih =>
    intro l h
    exact ih _ (keys_nodup_upsertKV _ _ h)


theorem bot_sweep_some (g : Guild) :
    ∀ (ms : List Member) (s : FirestoreState),
      List.foldl (fun st m => Bot.initialize_user st m g) (some s) ms =
        some ⟨List.foldl
          (fun l m => upsertKV (g.id, m.id)
            ({ user_id := some m.id, guild_id := some g.id,
               nickname := some m.display_name, updated_by := none,
               is_self_change := some true, username := some m.username }) l)
          s.users ms, s.immune_roles⟩ := by
  intro ms
  induction ms with
  | nil =>
    intro s
    rfl
  | cons a tl ih =>
    intro s
    exact ih _

theorem main_sweep_some (g : Guild) :
    ∀ (ms : List Member) (s : FirestoreState),
      List.foldl (fun st m => Main.initialize_user st m g) (some s) ms =
        some ⟨List.foldl
          (fun l m => upsertKV (g.id, m.id)
            (UserRecord.mergeInto
              { user_id := some m.id, guild_id := some g.id,
                nickname := some m.display_name, updated_by := none,
                is_self_change := some true, username := some m.username }
              ((lookupKV (g.id, m.id) l).getD UserRecord.empty)) l)
          s.users ms, s.immune_roles⟩ := by
  intro ms
  induction ms with
  | nil =>
    intro s
    rfl
  | cons a tl ih =>
    intro s
    exact ih _


/-- C9 (amended): the member-initialization sweep is idempotent in both
implementations (a second run over an unchanged member set reproduces the
stored state exactly) and preserves key-uniqueness of the records.  Seeding
is not loss-free in either file: the seed payload rewrites nickname,
username and `is_self_change` (reset to true, proved in the last conjunct
for main.py), in both implementations.  main.py writes that payload with
merge, so fields outside it — `updated_by` in particular — survive; bot.py
replaces the whole document and drops `updated_by` (see the
counterexample). -/
theorem claim_C9 (store : Option FirestoreState) (g : Guild)
    (hN : (g.members.map Member.id).Nodup) :
    Bot.initialize_all_members (Bot.initialize_all_members store g) g =
      Bot.initialize_all_members store g ∧
    Main.initialize_all_members (Main.initialize_all_members store g) g =
      Main.initialize_all_members store g ∧
    (∀ s s1, store = some s → (s.users.map Prod.fst).Nodup →
      Bot.initialize_all_members store g = some s1 → (s1.users.map Prod.fst).Nodup) ∧
    (∀ s s1, store = some s → (s.users.map Prod.fst).Nodup →
      Main.initialize_all_members store g = some s1 → (s1.users.map Prod.fst).Nodup) ∧
    (∀ s u doc, store = some s → lookupKV (g.id, u.id) s.users = some doc →
      ∃ s1 doc1, Main.initialize_user store u g = some s1 ∧
        lookupKV (g.id, u.id) s1.users = some doc1 ∧
        doc1.updated_by = doc.updated_by ∧
        doc1.nickname = some u.display_name ∧
        doc1.is_self_change = some true) := by
  cases store with
  | none =>
    have hbot : Bot.initialize_all_members none g = none :=
      foldl_init_none _ (fun m => rfl) g.members
    have hmain : Main.initialize_all_members none g = none :=
      foldl_init_none _ (fun m => rfl) g.members
    refine ⟨?_, ?_, ?_, ?_, ?_⟩
    · show Bot.initialize_all_members (Bot.initialize_all_members none g) g =
        Bot.initialize_all_members none g
      rw [hbot, hbot]
    · show Main.initialize_all_members (Main.initialize_all_members none g) g =
        Main.initialize_all_members none g
      rw [hmain, hmain]
    · intro s s1 hs
      cases hs
    · intro s s1 hs
      cases hs
    · intro s u doc hs
      cases hs
  | some s =>
    refine ⟨?_, ?_, ?_, ?_, ?_⟩
    · show Bot.initialize_all_members (Bot.initialize_all_members (some s) g) g =
        Bot.initialize_all_members (some s) g
      unfold Bot.initialize_all_members
      rw [bot_sweep_some g g.members s, bot_sweep_some g g.members]
      simp only [Option.some.injEq, FirestoreState.mk.injEq]
      refine ⟨?_, trivial⟩
      apply foldl_upsert_fixed
      intro m hm
      rcases lookupKV_foldl_upsert_self g _ g.members hN s.users m hm with ⟨l0, hl0⟩
      exact ⟨_, hl0, rfl⟩
    · show Main.initialize_all_members (Main.initialize_all_members (some s) g) g =
        Main.initialize_all_members (some s) g
      unfold Main.initialize_all_members
      rw [main_sweep_some g g.members s, main_sweep_some g g.members]
      simp only [Option.some.injEq, FirestoreState.mk.injEq]
      refine ⟨?_, trivial⟩
      apply foldl_upsert_fixed
      intro m hm
      rcases lookupKV_foldl_upsert_self g _ g.members hN s.users m hm with ⟨l0, hl0⟩
      refine ⟨_, hl0, ?_⟩
      rw [hl0]
      show UserRecord.mergeInto _ ((some _).getD UserRecord.empty) = _
      rw [Option.getD_some]
      exact mergeInto_absorb _ _
    · intro s0 s1 hs hnod heq
      have hss : s0 = s := (Option.some.inj hs).symm
      subst hss
      unfold Bot.initialize_all_members at heq
      rw [bot_sweep_some g g.members s0] at heq
      cases heq
      exact keys_nodup_foldl_upsert g _ g.members s0.users hnod
    · intro s0 s1 hs hnod heq
      have hss : s0 = s := (Option.some.inj hs).symm
      subst hss
      unfold Main.initialize_all_members at heq
      rw [main_sweep_some g g.members s0] at heq
      cases heq
      exact keys_nodup_foldl_upsert g _ g.members s0.users hnod
    · intro s0 u doc hs hdoc
      have hss : s0 = s := (Option.some.inj hs).symm
      subst hss
      refine ⟨_, UserRecord.mergeInto
          { user_id := some u.id, guild_id := some g.id,
            nickname := some u.display_name, updated_by := none,
            is_self_change := some true, username := some u.username }
          doc, rfl, ?_, ?_, ?_, ?_⟩
      · show lookupKV (g.id, u.id)
            (upsertKV (g.id, u.id)
              (UserRecord.mergeInto _ ((lookupKV (g.id, u.id) s0.users).getD UserRecord.empty))
              s0.users) = some _
        rw [hdoc]
        exact lookupKV_upsertKV_self _ _ _
      · simp [UserRecord.mergeInto]
      · simp [UserRecord.mergeInto]
      · simp [UserRecord.mergeInto]


/-! Branch reductions of the two `handle_nickname_change` functions. -/

theorem bot_handle_self (store : Option FirestoreState) (g : Guild)
    (audit : Except Unit (List AuditEntry)) (before after : Member) (edit_ok : Bool)
    (h_ne : ¬ before.display_name = after.display_name)
    (hself : (attributeChange 5 audit after).id = after.id) :
    Bot.handle_nickname_change store g audit before after edit_ok =
      { store := Bot.update_nickname_record store after g after.display_name
          (attributeChange 5 audit after).id true,
        reverted_to := none, notified := false } := by
  unfold Bot.handle_nickname_change
  simp only [h_ne, if_false, hself, if_true, if_pos]

theorem bot_handle_bot_actor (store : Option FirestoreState) (g : Guild)
    (audit : Except Unit (List AuditEntry)) (before after : Member) (edit_ok : Bool)
    (h_ne : ¬ before.display_name = after.display_name)
    (hnself : ¬ (attributeChange 5 audit after).id = after.id)
    (hbot : (attributeChange 5 audit after).id = g.botId) :
    Bot.handle_nickname_change store g audit before after edit_ok =
      { store := store, reverted_to := none, notified := false } := by
  have hnself2 : ¬ g.botId = after.id := by
    rw [← hbot]
    exact hnself
  unfold Bot.handle_nickname_change
  simp [h_ne, hbot, hnself2]

theorem bot_handle_authorized (store : Option FirestoreState) (g : Guild)
    (audit : Except Unit (List AuditEntry)) (before after : Member) (edit_ok : Bool)
    (h_ne : ¬ before.display_name = after.display_name)
    (hnself : ¬ (attributeChange 5 audit after).id = after.id)
    (hnbot : ¬ (attributeChange 5 audit after).id = g.botId)
    (hauth : Bot.can_user_change_others_nicknames store (attributeChange 5 audit after) g = true) :
    Bot.handle_nickname_change store g audit before after edit_ok =
      { store := store, reverted_to := none, notified := false } := by
  unfold Bot.handle_nickname_change
  simp only [h_ne, if_false, hnself, hnbot, hauth, if_true, if_pos]

theorem bot_handle_unauthorized_prev_none (store : Option FirestoreState) (g : Guild)
    (audit : Except Unit (List AuditEntry)) (before after : Member) (edit_ok : Bool)
    (h_ne : ¬ before.display_name = after.display_name)
    (hnself : ¬ (attributeChange 5 audit after).id = after.id)
    (hnbot : ¬ (attributeChange 5 audit after).id = g.botId)
    (hnauth : Bot.can_user_change_others_nicknames store (attributeChange 5 audit after) g = false)
    (hprev : (Bot.get_previous_nickname store after g).2 = none) :
    Bot.handle_nickname_change store g audit before after edit_ok =
      { store := (Bot.get_previous_nickname store after g).1,
        reverted_to := none, notified := false } := by
  unfold Bot.handle_nickname_change
  simp only [h_ne, if_false, hnself, hnbot, hnauth, Bool.false_eq_true, hprev, if_true, if_pos]

theorem main_handle_self (store : Option FirestoreState) (g : Guild)
    (audit : Except Unit (List AuditEntry)) (before after : Member) (edit_ok : Bool)
    (h_ne : ¬ before.display_name = after.display_name)
    (hself : (attributeChange 1 audit after).id = after.id) :
    Main.handle_nickname_change store g audit before after edit_ok =
      { store := Main.update_nickname_record (Main.initialize_user store after g)
          after g after.display_name (attributeChange 1 audit after).id true,
        reverted_to := none, notified := false } := by
  unfold Main.handle_nickname_change
  simp only [h_ne, if_false, hself, if_true, if_pos]

theorem main_handle_bot_actor (store : Option FirestoreState) (g : Guild)
    (audit : Except Unit (List AuditEntry)) (before after : Member) (edit_ok : Bool)
    (h_ne : ¬ before.display_name = after.display_name)
    (hnself : ¬ (attributeChange 1 audit after).id = after.id)
    (hbot : (attributeChange 1 audit after).id = g.botId) :
    Main.handle_nickname_change store g audit before after edit_ok =
      { store := Main.update_nickname_record (Main.initialize_user store after g)
          after g after.display_name (attributeChange 1 audit after).id false,
        reverted_to := none, notified := false } := by
  have hnself2 : ¬ g.botId = after.id := by
    rw [← hbot]
    exact hnself
  unfold Main.handle_nickname_change
  simp [h_ne, hbot, hnself2]

theorem main_handle_authorized (store : Option FirestoreState) (g : Guild)
    (audit : Except Unit (List AuditEntry)) (before after : Member) (edit_ok : Bool)
    (h_ne : ¬ before.display_name = after.display_name)
    (hnself : ¬ (attributeChange 1 audit after).id = after.id)
    (hnbot : ¬ (attributeChange 1 audit after).id = g.botId)
    (hauth : Main.can_user_change_others_nicknames
      (Main.update_nickname_record (Main.initialize_user store after g)
        after g after.display_name (attributeChange 1 audit after).id false)
      (attributeChange 1 audit after) g = true) :
    Main.handle_nickname_change store g audit before after edit_ok =
      { store := Main.update_nickname_record (Main.initialize_user store after g)
          after g after.display_name (attributeChange 1 audit after).id false,
        reverted_to := none, notified := false } := by
  unfold Main.handle_nickname_change
  simp only [h_ne, if_false, hnself, hnbot, hauth, if_true, if_pos]

theorem main_handle_unauthorized_prev_none (store : Option FirestoreState) (g : Guild)
    (audit : Except Unit (List AuditEntry)) (before after : Member) (edit_ok : Bool)
    (h_ne : ¬ before.display_name = after.display_name)
    (hnself : ¬ (attributeChange 1 audit after).id = after.id)
    (hnbot : ¬ (attributeChange 1 audit after).id = g.botId)
    (hnauth : Main.can_user_change_others_nicknames
      (Main.update_nickname_record (Main.initialize_user store after g)
        after g after.display_name (attributeChange 1 audit after).id false)
      (attributeChange 1 audit after) g = false)
    (hprev : Main.get_previous_nickname
      (Main.update_nickname_record (Main.initialize_user store after g)
        after g after.display_name (attributeChange 1 audit after).id false)
      after g = none) :
    Main.handle_nickname_change store g audit before after edit_ok =
      { store := Main.update_nickname_record (Main.initialize_user store after g)
          after g after.display_name (attributeChange 1 audit after).id false,
        reverted_to := none, notified := false } := by
  unfold Main.handle_nickname_change
  simp only [h_ne, if_false, hnself, hnbot, hnauth, Bool.false_eq_true, hprev, if_true, if_pos]


theorem bot_handle_no_change (store : Option FirestoreState) (g : Guild)
    (audit : Except Unit (List AuditEntry)) (before after : Member) (edit_ok : Bool)
    (h : before.display_name = after.display_name) :
    Bot.handle_nickname_change store g audit before after edit_ok =
      { store := store, reverted_to := none, notified := false } := by
  unfold Bot.handle_nickname_change
  rw [if_pos h]

theorem main_handle_no_change (store : Option FirestoreState) (g : Guild)
    (audit : Except Unit (List AuditEntry)) (before after : Member) (edit_ok : Bool)
    (h : before.display_name = after.display_name) :
    Main.handle_nickname_change store g audit before after edit_ok =
      { store := store, reverted_to := none, notified := false } := by
  unfold Main.handle_nickname_change
  rw [if_pos h]

/-- The user-record writes never touch the immune-role collection, so the
policy checks read the same immune set before and after them. -/
theorem is_user_immune_update_nickname_record (store : Option FirestoreState)
    (u : Member) (g : Guild) (n : String) (ub : Nat) (b : Bool)
    (a : Member) (g2 : Guild) :
    Bot.is_user_immune (Bot.update_nickname_record store u g n ub b) a g2 =
      Bot.is_user_immune store a g2 := by
  cases store <;> rfl

theorem is_user_immune_main_initialize_user (store : Option FirestoreState)
    (u : Member) (g : Guild) (a : Member) (g2 : Guild) :
    Bot.is_user_immune (Main.initialize_user store u g) a g2 =
      Bot.is_user_immune store a g2 := by
  cases store <;> rfl

theorem can_change_update_nickname_record (store : Option FirestoreState)
    (u : Member) (g : Guild) (n : String) (ub : Nat) (b : Bool)
    (a : Member) (g2 : Guild) :
    Bot.can_user_change_others_nicknames (Bot.update_nickname_record store u g n ub b) a g2 =
      Bot.can_user_change_others_nicknames store a g2 := by
  unfold Bot.can_user_change_others_nicknames
  rw [is_user_immune_update_nickname_record]

theorem can_change_main_initialize_user (store : Option FirestoreState)
    (u : Member) (g : Guild) (a : Member) (g2 : Guild) :
    Bot.can_user_change_others_nicknames (Main.initialize_user store u g) a g2 =
      Bot.can_user_change_others_nicknames store a g2 := by
  unfold Bot.can_user_change_others_nicknames
  rw [is_user_immune_main_initialize_user]

/-- The record written by `update_nickname_record`. -/
theorem lookup_update_nickname_record (s : FirestoreState) (u : Member) (g : Guild)
    (n : String) (ub : Nat) (b : Bool) :
    ∃ s1, Bot.update_nickname_record (some s) u g n ub b = some s1 ∧
      ∃ d, lookupKV (g.id, u.id) s1.users = some d ∧
        d.nickname = some n ∧ d.updated_by = some ub ∧ d.is_self_change = some b := by
  refine ⟨_, rfl, UserRecord.mergeInto
      { user_id := none, guild_id := none, nickname := some n,
        updated_by := some ub, is_self_change := some b, username := some u.username }
      ((lookupKV (g.id, u.id) s.users).getD UserRecord.empty), ?_, ?_, ?_, ?_⟩
  · exact lookupKV_upsertKV_self _ _ _
  · simp [UserRecord.mergeInto]
  · simp [UserRecord.mergeInto]
  · simp [UserRecord.mergeInto]


theorem can_change_main_writes (store : Option FirestoreState) (u : Member)
    (g : Guild) (n : String) (ub : Nat) (b : Bool) (a : Member) (g2 : Guild) :
    Bot.can_user_change_others_nicknames
      (Main.update_nickname_record (Main.initialize_user store u g) u g n ub b) a g2 =
    Bot.can_user_change_others_nicknames store a g2 := by
  show Bot.can_user_change_others_nicknames
      (Bot.update_nickname_record (Main.initialize_user store u g) u g n ub b) a g2 = _
  rw [can_change_update_nickname_record, can_change_main_initialize_user]

/-- C3: a rename whose attribution resolves to the renamed member themself is
accepted by both handlers with no revert and no notification, whatever the
role state and immune set, and (store available) the member's record is
updated to the new name with actor = the member and self-change = true. -/
theorem claim_C3 (store : Option FirestoreState) (g : Guild)
    (audit : Except Unit (List AuditEntry)) (before after : Member) (edit_ok : Bool)
    (h_ne : before.display_name ≠ after.display_name)
    (h5 : (attributeChange 5 audit after).id = after.id)
    (h1 : (attributeChange 1 audit after).id = after.id) :
    (Bot.handle_nickname_change store g audit before after edit_ok).reverted_to = none ∧
    (Bot.handle_nickname_change store g audit before after edit_ok).notified = false ∧
    (Main.handle_nickname_change store g audit before after edit_ok).reverted_to = none ∧
    (Main.handle_nickname_change store g audit before after edit_ok).notified = false ∧
    (∀ s, store = some s →
      ∃ s1 d, (Bot.handle_nickname_change store g audit before after edit_ok).store = some s1 ∧
        lookupKV (g.id, after.id) s1.users = some d ∧
        d.nickname = some after.display_name ∧ d.updated_by = some after.id ∧
        d.is_self_change = some true) ∧
    (∀ s, store = some s →
      ∃ s1 d, (Main.handle_nickname_change store g audit before after edit_ok).store = some s1 ∧
        lookupKV (g.id, after.id) s1.users = some d ∧
        d.nickname = some after.display_name ∧ d.updated_by = some after.id ∧
        d.is_self_change = some true) := by
  rw [bot_handle_self store g audit before after edit_ok h_ne h5,
      main_handle_self store g audit before after edit_ok h_ne h1]
  refine ⟨rfl, rfl, rfl, rfl, ?_, ?_⟩
  · intro s hs
    subst hs
    rcases lookup_update_nickname_record s after g after.display_name
        (attributeChange 5 audit after).id true with ⟨s1, he, d, hl, hn, hu, hb⟩
    refine ⟨s1, d, he, hl, hn, ?_, hb⟩
    rw [hu, h5]
  · intro s hs
    subst hs
    obtain ⟨s0, hs0⟩ : ∃ s0, Main.initialize_user (some s) after g = some s0 := ⟨_, rfl⟩
    rcases lookup_update_nickname_record s0 after g after.display_name
        (attributeChange 1 audit after).id true with ⟨s1, he, d, hl, hn, hu, hb⟩
    refine ⟨s1, d, ?_, hl, hn, ?_, hb⟩
    · show Main.update_nickname_record (Main.initialize_user (some s) after g)
        after g after.display_name (attributeChange 1 audit after).id true = some s1
      rw [hs0]
      exact he
    · rw [hu, h1]

/-- C2 (amended): an attributed rename by a different, authorized actor
(owner or immune-role holder) is accepted by both handlers with no revert
and no notification; main.py updates the record to the new name with
updated_by = the actor and self-change = false, while bot.py leaves the
record store unchanged. -/
theorem claim_C2 (store : Option FirestoreState) (g : Guild)
    (audit : Except Unit (List AuditEntry)) (before after actor : Member) (edit_ok : Bool)
    (hA5 : attributeChange 5 audit after = actor)
    (hA1 : attributeChange 1 audit after = actor)
    (h_ne : before.display_name ≠ after.display_name)
    (h_other : actor.id ≠ after.id)
    (h_auth : actor.id = g.owner_id ∨ isImmuneSpec store actor g) :
    (Bot.handle_nickname_change store g audit before after edit_ok).reverted_to = none ∧
    (Bot.handle_nickname_change store g audit before after edit_ok).notified = false ∧
    (Bot.handle_nickname_change store g audit before after edit_ok).store = store ∧
    (Main.handle_nickname_change store g audit before after edit_ok).reverted_to = none ∧
    (Main.handle_nickname_change store g audit before after edit_ok).notified = false ∧
    (∀ s, store = some s →
      ∃ s1 d, (Main.handle_nickname_change store g audit before after edit_ok).store = some s1 ∧
        lookupKV (g.id, after.id) s1.users = some d ∧
        d.nickname = some after.display_name ∧ d.updated_by = some actor.id ∧
        d.is_self_change = some false) := by
  subst hA5
  have hcode : Bot.can_user_change_others_nicknames store (attributeChange 5 audit after) g
      = true := by
    unfold Bot.can_user_change_others_nicknames
    rcases h_auth with ho | him
    · simp [ho]
    · have himm := (is_user_immune_iff store (attributeChange 5 audit after) g).mpr him
      simp [himm]
  have h_other1 : (attributeChange 1 audit after).id ≠ after.id := by
    rw [hA1]
    exact h_other
  have hbotmain :
      Main.handle_nickname_change store g audit before after edit_ok =
        { store := Main.update_nickname_record (Main.initialize_user store after g)
            after g after.display_name (attributeChange 1 audit after).id false,
          reverted_to := none, notified := false } := by
    by_cases hb1 : (attributeChange 1 audit after).id = g.botId
    · exact main_handle_bot_actor store g audit before after edit_ok h_ne h_other1 hb1
    · apply main_handle_authorized store g audit before after edit_ok h_ne h_other1 hb1
      show Bot.can_user_change_others_nicknames _ _ _ = true
      rw [can_change_main_writes, hA1]
      exact hcode
  have hbotbot :
      Bot.handle_nickname_change store g audit before after edit_ok =
        { store := store, reverted_to := none, notified := false } := by
    by_cases hb5 : (attributeChange 5 audit after).id = g.botId
    · exact bot_handle_bot_actor store g audit before after edit_ok h_ne h_other hb5
    · exact bot_handle_authorized store g audit before after edit_ok h_ne h_other hb5 hcode
  rw [hbotbot, hbotmain]
  refine ⟨rfl, rfl, rfl, rfl, rfl, ?_⟩
  intro s hs
  subst hs
  obtain ⟨s0, hs0⟩ : ∃ s0, Main.initialize_user (some s) after g = some s0 := ⟨_, rfl⟩
  rcases lookup_update_nickname_record s0 after g after.display_name
      (attributeChange 1 audit after).id false with ⟨s1, he, d, hl, hn, hu, hb⟩
  refine ⟨s1, d, ?_, hl, hn, ?_, hb⟩
  · show Main.update_nickname_record (Main.initialize_user (some s) after g)
      after g after.display_name (attributeChange 1 audit after).id false = some s1
    rw [hs0]
    exact he
  · rw [hu, hA1]

/-- C10 (implicit): an unauthorized other-rename whose previous-nickname read
yields no value (store unavailable, or — in bot.py — a record without a
nickname field) triggers no revert and no notification, and the store is
left unchanged. -/
theorem claim_C10 (g : Guild) (audit : Except Unit (List AuditEntry))
    (before after actor : Member) (edit_ok : Bool)
    (hA5 : attributeChange 5 audit after = actor)
    (hA1 : attributeChange 1 audit after = actor)
    (h_other : actor.id ≠ after.id)
    (h_bot : actor.id ≠ g.botId)
    (h_own : actor.id ≠ g.owner_id) :
    Bot.handle_nickname_change none g audit before after edit_ok =
      { store := none, reverted_to := none, notified := false } ∧
    Main.handle_nickname_change none g audit before after edit_ok =
      { store := none, reverted_to := none, notified := false } ∧
    (∀ s doc, lookupKV (g.id, after.id) s.users = some doc → doc.nickname = none →
      (∀ r ∈ actor.roles, r.id ∉ immuneRoleIds s g.id) →
      Bot.handle_nickname_change (some s) g audit before after edit_ok =
        { store := some s, reverted_to := none, notified := false }) := by
  subst hA5
  have h_other1 : (attributeChange 1 audit after).id ≠ after.id := by
    rw [hA1]
    exact h_other
  have h_bot1 : (attributeChange 1 audit after).id ≠ g.botId := by
    rw [hA1]
    exact h_bot
  have h_own1 : (attributeChange 1 audit after).id ≠ g.owner_id := by
    rw [hA1]
    exact h_own
  refine ⟨?_, ?_, ?_⟩
  · by_cases h_ne : before.display_name = after.display_name
    · exact bot_handle_no_change none g audit before after edit_ok h_ne
    · have hcode : Bot.can_user_change_others_nicknames none
          (attributeChange 5 audit after) g = false := by
        simp [Bot.can_user_change_others_nicknames, Bot.is_user_immune, h_own]
      exact bot_handle_unauthorized_prev_none none g audit before after edit_ok
        h_ne h_other h_bot hcode rfl
  · by_cases h_ne : before.display_name = after.display_name
    · exact main_handle_no_change none g audit before after edit_ok h_ne
    · have hcode : Main.can_user_change_others_nicknames
          (Main.update_nickname_record (Main.initialize_user none after g)
            after g after.display_name (attributeChange 1 audit after).id false)
          (attributeChange 1 audit after) g = false := by
        show Bot.can_user_change_others_nicknames _ _ _ = false
        rw [can_change_main_writes]
        simp [Bot.can_user_change_others_nicknames, Bot.is_user_immune, h_own1]
      exact main_handle_unauthorized_prev_none none g audit before after edit_ok
        h_ne h_other1 h_bot1 hcode rfl
  · intro s doc hdoc hnn himm
    by_cases h_ne : before.display_name = after.display_name
    · exact bot_handle_no_change (some s) g audit before after edit_ok h_ne
    · have himmf : Bot.is_user_immune (some s) (attributeChange 5 audit after) g = false := by
        cases hcase : Bot.is_user_immune (some s) (attributeChange 5 audit after) g with
        | false => rfl
        | true =>
          rcases (is_user_immune_iff _ _ _).mp hcase with ⟨s2, hs2, r, hr, hmem⟩
          have hss : s2 = s := (Option.some.inj hs2).symm
          subst hss
          exact absurd hmem (himm r hr)
      have hcode : Bot.can_user_change_others_nicknames (some s)
          (attributeChange 5 audit after) g = false := by
        simp [Bot.can_user_change_others_nicknames, himmf, h_own]
      have hprev : (Bot.get_previous_nickname (some s) after g).2 = none := by
        simp [Bot.get_previous_nickname, hdoc, hnn]
      have hst : (Bot.get_previous_nickname (some s) after g).1 = some s := by
        simp [Bot.get_previous_nickname, hdoc]
      rw [bot_handle_unauthorized_prev_none (some s) g audit before after edit_ok
        h_ne h_other h_bot hcode hprev, hst]


/-- C1: at a concrete unauthorized rename (actor 3, neither the member, the
bot, nor owner 10, holding no immune role; stored legitimate name "Alice",
attempted name "Bob") main.py's handler issues no revert and no
notification and leaves the record holding the attempted name "Bob",
because it updates the record before the authorization check; bot.py's
handler at the same event issues the revert to "Alice" and notifies. -/
theorem claim_C1_main_no_revert :
    (Main.handle_nickname_change (some exStore) exGuild exAudit mBefore mAfter true).reverted_to
      = none ∧
    (Main.handle_nickname_change (some exStore) exGuild exAudit mBefore mAfter true).notified
      = false ∧
    (∃ s1 d,
      (Main.handle_nickname_change (some exStore) exGuild exAudit mBefore mAfter true).store
        = some s1 ∧ lookupKV (1, 2) s1.users = some d ∧ d.nickname = some "Bob") ∧
    (Bot.handle_nickname_change (some exStore) exGuild exAudit mBefore mAfter true).reverted_to
      = some "Alice" ∧
    (Bot.handle_nickname_change (some exStore) exGuild exAudit mBefore mAfter true).notified
      = true :=
  ⟨rfl, rfl, ⟨_, _, rfl, rfl, rfl⟩, rfl, rfl⟩

/-- C2 counterexample: at a concrete owner-rename of member 2 ("Alice" to
"Bob"), bot.py accepts (no revert) but the stored record keeps nickname
"Alice" and has no updated_by field: the record is not updated to the new
name. -/
theorem claim_C2_counterexample :
    (Bot.handle_nickname_change (some exStore) exGuild ownAudit mBefore mAfter true).reverted_to
      = none ∧
    ∃ s1 d,
      (Bot.handle_nickname_change (some exStore) exGuild ownAudit mBefore mAfter true).store
        = some s1 ∧ lookupKV (1, 2) s1.users = some d ∧
      d.nickname = some "Alice" ∧ d.updated_by = none :=
  ⟨rfl, _, _, rfl, rfl, rfl, rfl⟩

/-- C9 counterexample: re-seeding member 2 is not loss-free in either file.
bot.py replaces the whole record: the `updated_by = 7` and
`is_self_change = false` values written by a previously accepted rename are
gone afterwards.  main.py's merge-seed keeps `updated_by = 7` but still
overwrites `is_self_change` back to true, since that field is part of its
seed payload. -/
theorem claim_C9_counterexample :
    renamedRec.updated_by = some 7 ∧ renamedRec.is_self_change = some false ∧
    (∃ s1 d, Bot.initialize_user (some renamedStore) mBefore exGuild = some s1 ∧
      lookupKV (1, 2) s1.users = some d ∧
      d.updated_by = none ∧ d.is_self_change = some true) ∧
    (∃ s2 d2, Main.initialize_user (some renamedStore) mBefore exGuild = some s2 ∧
      lookupKV (1, 2) s2.users = some d2 ∧
      d2.updated_by = some 7 ∧ d2.is_self_change = some true) :=
  ⟨rfl, rfl, ⟨_, _, rfl, rfl, rfl, rfl⟩, ⟨_, _, rfl, rfl, rfl, rfl⟩⟩

/-- Witness for C2 at the owner-rename instance. -/
theorem claim_C2_witness :
    (Bot.handle_nickname_change (some exStore) exGuild ownAudit mBefore mAfter true).store
      = some exStore ∧
    (Main.handle_nickname_change (some exStore) exGuild ownAudit mBefore mAfter true).reverted_to
      = none := by
  have h := claim_C2 (some exStore) exGuild ownAudit mBefore mAfter mOwner true
    rfl rfl (by decide) (by decide) (Or.inl rfl)
  exact ⟨h.2.2.1, h.2.2.2.1⟩

/-- Witness for C3 at the self-rename instance. -/
theorem claim_C3_witness :
    (Bot.handle_nickname_change (some exStore) exGuild selfAudit mBefore mAfter true).reverted_to
      = none ∧
    ∃ s1 d,
      (Bot.handle_nickname_change (some exStore) exGuild selfAudit mBefore mAfter true).store
        = some s1 ∧ lookupKV (exGuild.id, mAfter.id) s1.users = some d ∧
      d.nickname = some mAfter.display_name ∧ d.updated_by = some mAfter.id ∧
      d.is_self_change = some true := by
  have h := claim_C3 (some exStore) exGuild selfAudit mBefore mAfter true
    (by decide) rfl rfl
  exact ⟨h.1, h.2.2.2.2.1 exStore rfl⟩

/-- Witness for C8 at guild 1 with role 5. -/
theorem claim_C8_witness :
    ∃ e c, (exRole, e, c) ∈
      Bot.get_immune_roles (Bot.add_immune_role (some exEmptyStore) exRole).1 exGuild := by
  have h := claim_C8 exEmptyStore exGuild exRole rfl (by decide)
  exact h.1

/-- Witness for C9 at guild 1's one-member set. -/
theorem claim_C9_witness :
    Bot.initialize_all_members (Bot.initialize_all_members (some exStore) exGuild) exGuild
      = Bot.initialize_all_members (some exStore) exGuild := by
  have h := claim_C9 (some exStore) exGuild (by decide)
  exact h.1

/-- Witness for C10 at actor 3 with an unavailable store and with a
nickname-less record. -/
theorem claim_C10_witness :
    Bot.handle_nickname_change none exGuild exAudit mBefore mAfter true =
      { store := none, reverted_to := none, notified := false } ∧
    Bot.handle_nickname_change (some noNickStore) exGuild exAudit mBefore mAfter true =
      { store := some noNickStore, reverted_to := none, notified := false } := by
  have h := claim_C10 exGuild exAudit mBefore mAfter mActor true
    rfl rfl (by decide) (by decide) (by decide)
  exact ⟨h.1, h.2.2 noNickStore noNickRec rfl rfl (by simp [mActor])⟩

end NG
